import Mathlib

/-
Verification of the flow-of-flows composer, the local scheduling backend and
the results store of the lume-services repository.

The Python sources are shallowly embedded:
  * Python dictionaries become insertion-ordered association lists
    (`List (String × α)`) with `dget` (dict lookup / `.get`) and `dinsert`
    (dict assignment: overwrite in place, append when the key is new).
  * The pydantic validator `FlowOfFlows.validate`
    (flow_of_flows_schema.py, lines 62-117) is embedded as `validateFlows`.
    The resolution of each composing flow against the external Prefect
    registry (`FlowView.from_flow_name`, lines 67-89) is external I/O; a
    `Flow` record here is therefore the already-resolved record assembled by
    lines 82-89 (name, project name, declared parameter names, mapped
    parameters keyed by name, task-name-to-slug map).
  * `FlowOfFlows.compose` (lines 119-189) is embedded as `compose`, with the
    external Prefect primitives modelled as graph construction:
    `create_flow_run` appends a run node, `wait_for_flow_run` appends a wait
    node recording the id of the run it waits on, `set_upstream` appends an
    edge from a wait node to a run node, and `get_task_run_result` builds a
    deferred `PValue.taskResult` reference.  A Python `KeyError` or
    `NameError` is `Option.none`.  The iteration order of the Python set
    `upstream_flows` is modelled as insertion order; the claims below only
    depend on which edges exist, not on the order they are added in.
  * `LocalBackend.run_and_return` (local.py, lines 83-134) is embedded as
    `run_and_return`; the outcome of the external `flow.run` call is an input
    (`none` models a run whose `.result` is `None`).
  * The results store backing test_results.py is not part of the provided
    sources; it is modelled from the spec (see `insert_one` and `find`).
-/

set_option autoImplicit false

namespace LumeServices

/-! ### Python dictionaries as insertion-ordered association lists -/

/-- Dict lookup: `d.get(k)` / `d[k]`. Returns the value at the first
(unique, by `dinsert` construction) occurrence of the key. -/
def dget {α : Type} (k : String) : List (String × α) → Option α
  | [] => none
  | (k', v) :: rest => if k' = k then some v else dget k rest

/-- Dict assignment `d[k] = v`: overwrites in place when the key exists,
appends at the end otherwise (CPython dict semantics). -/
def dinsert {α : Type} (k : String) (v : α) : List (String × α) → List (String × α)
  | [] => [(k, v)]
  | (k', v') :: rest => if k' = k then (k, v) :: rest else (k', v') :: dinsert k v rest

/-! ### Error classes (flow_of_flows_schema.py, lines 11-34) -/

/-- Embeds `ParameterNotInFlowError` (lines 11-16). -/
structure ParameterNotInFlowError where
  parameter_name : String
  flow_name : String
  message : String
deriving DecidableEq, Repr

/-- The `ParameterNotInFlowError.__init__` constructor (lines 12-16). -/
def mkParameterNotInFlowError (parameter_name : String) (flow_name : String) :
    ParameterNotInFlowError :=
  ⟨parameter_name, flow_name,
    "Parameter " ++ parameter_name ++ " not in flow " ++ flow_name ++ "."⟩

/-- Embeds `ParentFlowNotInFlowsError` (lines 19-26). -/
structure ParentFlowNotInFlowsError where
  flow_name : String
  flows : List String
  message : String
deriving DecidableEq, Repr

/-- The `ParentFlowNotInFlowsError.__init__` constructor (lines 20-26). -/
def mkParentFlowNotInFlowsError (flow_name : String) (flows : List String) :
    ParentFlowNotInFlowsError :=
  ⟨flow_name, flows,
    "Parent flow " ++ flow_name ++ " not in flows: " ++ String.intercalate ", " flows ++ "."⟩

/-- Embeds `TaskNotInFlowError` (lines 29-34).  Its message f-string is
`f"Task {flow_name} not in flow {task_name}."`, which interpolates the flow
name into the task position and the task name into the flow position. -/
structure TaskNotInFlowError where
  flow_name : String
  task_name : String
  message : String
deriving DecidableEq, Repr

/-- The `TaskNotInFlowError.__init__` constructor (lines 30-34). -/
def mkTaskNotInFlowError (flow_name : String) (task_name : String) : TaskNotInFlowError :=
  ⟨flow_name, task_name,
    "Task " ++ flow_name ++ " not in flow " ++ task_name ++ "."⟩

/-- The three exception kinds `FlowOfFlows.validate` can raise. -/
inductive FofError where
  | parameterNotInFlow : ParameterNotInFlowError → FofError
  | parentFlowNotInFlows : ParentFlowNotInFlowsError → FofError
  | taskNotInFlow : TaskNotInFlowError → FofError
deriving DecidableEq, Repr

/-! ### Schema records (flow_of_flows_schema.py, lines 37-60) -/

/-- Embeds the `MappedParameter` pydantic model (lines 37-40). -/
structure MappedParameter where
  name : String
  parent_flow_name : String
  parent_task_name : String
deriving DecidableEq, Repr

/-- Embeds the `Flow` pydantic model (lines 43-52) as assembled by the
validator (lines 82-89): `parameters` keeps the declared parameter names
(the keys of `{parameter.name: parameter}`), `mappedParameters` is the
optional dict `{param["name"]: param}`, `taskSlugs` is
`{task.name: task.slug}`. -/
structure Flow where
  name : String
  projectName : String
  parameters : List String
  mappedParameters : Option (List (String × MappedParameter))
  taskSlugs : List (String × String)
deriving DecidableEq, Repr

/-! ### The validation loop (flow_of_flows_schema.py, lines 91-117) -/

/-- One iteration of the inner loop of `FlowOfFlows.validate` (lines 94-113):
the three checks for a single mapped parameter, raising in source order. -/
def checkMappedParameter (flows : List (String × Flow)) (flowName : String) (f : Flow)
    (parameterName : String) (mp : MappedParameter) : Except FofError Unit :=
  if parameterName ∈ f.parameters then
    match dget mp.parent_flow_name flows with
    | none =>
        .error (.parentFlowNotInFlows
          (mkParentFlowNotInFlowsError mp.parent_flow_name (flows.map Prod.fst)))
    | some parentFlow =>
        match dget mp.parent_task_name parentFlow.taskSlugs with
        | none =>
            .error (.taskNotInFlow
              (mkTaskNotInFlowError mp.parent_flow_name mp.parent_task_name))
        | some _ => .ok ()
  else
    .error (.parameterNotInFlow (mkParameterNotInFlowError parameterName flowName))

/-- The loop over one flow's mapped parameters (line 94). -/
def checkFlowMapped (flows : List (String × Flow)) (flowName : String) (f : Flow) :
    List (String × MappedParameter) → Except FofError Unit
  | [] => .ok ()
  | (pname, mp) :: rest =>
    match checkMappedParameter flows flowName f pname mp with
    | .ok _ => checkFlowMapped flows flowName f rest
    | .error e => .error e

/-- The `if flow.mapped_parameters is not None` guard (line 93). -/
def checkFlow (flows : List (String × Flow)) (flowName : String) (f : Flow) :
    Except FofError Unit :=
  match f.mappedParameters with
  | none => .ok ()
  | some mps => checkFlowMapped flows flowName f mps

/-- The outer loop over all composing flows (line 92). -/
def validateGo (flows : List (String × Flow)) : List (String × Flow) → Except FofError Unit
  | [] => .ok ()
  | (fn, f) :: rest =>
    match checkFlow flows fn f with
    | .ok _ => validateGo flows rest
    | .error e => .error e

/-- Embeds the parameter-validation phase of `FlowOfFlows.validate`
(lines 91-117): on success the flows dict itself is returned (line 117),
otherwise the first exception raised propagates. -/
def validateFlows (flows : List (String × Flow)) : Except FofError (List (String × Flow)) :=
  match validateGo flows flows with
  | .ok _ => .ok flows
  | .error e => .error e

/-! ### The composition (flow_of_flows_schema.py, lines 119-189) -/

/-- A value passed into a `create_flow_run` parameters dict: either a renamed
`Parameter` object (line 137 mutates its `.name` to the prefixed form) or a
deferred `get_task_run_result` reference to task `taskSlug` of run `runId`
(line 159). -/
inductive PValue where
  | param : String → PValue
  | taskResult : Nat → String → PValue
deriving DecidableEq, Repr

/-- A `create_flow_run` node in the merged workflow (lines 145 and 170). -/
structure RunNode where
  flowName : String
  projectName : String
  parameters : List (String × PValue)
deriving DecidableEq, Repr

/-- The graph-construction state of `compose`: the created run nodes (id =
index), the created wait nodes (each holding the id of the run it waits on,
line 177), the upstream edges from wait node to run node (line 175), the
renamed-parameter registry `params` (line 138) and the `flow_runs` /
`flow_waits` name maps (lines 124-125, 178-179). -/
structure ComposeState where
  runs : List RunNode
  waits : List Nat
  edges : List (Nat × Nat)
  params : List (String × String)
  flowRuns : List (String × Nat)
  flowWaits : List (String × Nat)
deriving DecidableEq, Repr

/-- The membership test of line 134:
`flow.mapped_parameters is not None and param_name in flow.mapped_parameters`. -/
def isMapped (m : Option (List (String × MappedParameter))) (p : String) : Bool :=
  match m with
  | none => false
  | some mps => (dget p mps).isSome

/-- The `params[param.name] = param` effect of the loop at lines 131-141:
each non-mapped parameter is registered under its prefixed name
`{flow_name}-{param_name}` (the `Parameter` object's `.name` is mutated to
that prefixed form, so the stored value carries the prefixed name too). -/
def registerFlowParamsAux (fn : String) (m : Option (List (String × MappedParameter))) :
    List String → List (String × String) → List (String × String)
  | [], acc => acc
  | p :: rest, acc =>
    registerFlowParamsAux fn m rest
      (if isMapped m p then acc else dinsert (fn ++ "-" ++ p) (fn ++ "-" ++ p) acc)

/-- The `flow_params[param_name] = param` effect of the same loop: the run
invocation's parameter dict is keyed by the original parameter name while the
value is the renamed `Parameter` object. -/
def initFlowParamsAux (fn : String) (m : Option (List (String × MappedParameter))) :
    List String → List (String × PValue) → List (String × PValue)
  | [], fp => fp
  | p :: rest, fp =>
    initFlowParamsAux fn m rest
      (if isMapped m p then fp else dinsert p (PValue.param (fn ++ "-" ++ p)) fp)

/-- `upstream_flows.add(...)` (line 165): sets keep one copy of each element. -/
def setAdd (l : List String) (x : String) : List String :=
  if x ∈ l then l else l ++ [x]

/-- The mapped-parameter loop of lines 155-165: looks up the parent flow in
`self.composing_flows`, the parent task's slug, and the parent's run in
`flow_runs`; substitutes the deferred task-run-result reference for the
parameter and records the parent flow as upstream.  A failing dict lookup is
a Python `KeyError`, i.e. `none`. -/
def applyMapped (c : List (String × Flow)) (flowRuns : List (String × Nat)) :
    List (String × MappedParameter) → List (String × PValue) → List String →
    Option (List (String × PValue) × List String)
  | [], fp, ups => some (fp, ups)
  | (pname, mp) :: rest, fp, ups =>
    match dget mp.parent_flow_name c with
    | none => none
    | some parent =>
      match dget mp.parent_task_name parent.taskSlugs with
      | none => none
      | some slug =>
        match dget mp.parent_flow_name flowRuns with
        | none => none
        | some rid =>
          applyMapped c flowRuns rest (dinsert pname (PValue.taskResult rid slug) fp)
            (setAdd ups mp.parent_flow_name)

/-- The upstream-wiring loop of lines 174-175: one
`flow_run.set_upstream(flow_waits[upstream])` edge per recorded upstream. -/
def addUpstreamEdges (flowWaits : List (String × Nat)) (rid : Nat) :
    List String → List (Nat × Nat) → Option (List (Nat × Nat))
  | [], edges => some edges
  | u :: rest, edges =>
    match dget u flowWaits with
    | none => none
    | some w => addUpstreamEdges flowWaits rid rest (edges ++ [(w, rid)])

/-- One iteration of the `for i, (flow_name, flow) in enumerate(...)` loop
(lines 128-179).  `cur` is the Python local variable `flow_run`, which leaks
across iterations: a flow at position `i > 0` whose `mapped_parameters` is
`None` never reaches the `create_flow_run` call (it is nested inside the
mapped-parameter branch, lines 152-170), so its wait node and its
`flow_runs` entry reuse the stale `flow_run` of a previous iteration.
Returns the updated state and the value of `flow_run` after the iteration. -/
def composeStep (c : List (String × Flow)) (fn : String) (f : Flow) (i : Nat)
    (st : ComposeState) (cur : Option Nat) : Option (ComposeState × Nat) :=
  let ps2 := registerFlowParamsAux fn f.mappedParameters f.parameters st.params
  let fp := initFlowParamsAux fn f.mappedParameters f.parameters []
  if i = 0 then
    some (⟨st.runs ++ [⟨fn, f.projectName, fp⟩], st.waits ++ [st.runs.length], st.edges,
      ps2, dinsert fn st.runs.length st.flowRuns, dinsert fn st.waits.length st.flowWaits⟩,
      st.runs.length)
  else
    match f.mappedParameters with
    | some mps =>
      match applyMapped c st.flowRuns mps fp [] with
      | none => none
      | some (fp2, ups) =>
        match addUpstreamEdges st.flowWaits st.runs.length ups st.edges with
        | none => none
        | some edges2 =>
          some (⟨st.runs ++ [⟨fn, f.projectName, fp2⟩], st.waits ++ [st.runs.length], edges2,
            ps2, dinsert fn st.runs.length st.flowRuns,
            dinsert fn st.waits.length st.flowWaits⟩,
            st.runs.length)
    | none =>
      match cur with
      | none => none
      | some rid =>
        some (⟨st.runs, st.waits ++ [rid], st.edges, ps2,
          dinsert fn rid st.flowRuns, dinsert fn st.waits.length st.flowWaits⟩,
          rid)

/-- The full loop of `compose` (lines 128-179), threading the state and the
`flow_run` local through the iterations. -/
def composeGo (c : List (String × Flow)) :
    List (String × Flow) → Nat → ComposeState → Option Nat →
    Option (ComposeState × Option Nat)
  | [], _, st, cur => some (st, cur)
  | (fn, f) :: rest, i, st, cur =>
    match composeStep c fn f i st cur with
    | none => none
    | some (st2, rid) => composeGo c rest (i + 1) st2 (some rid)

/-- Embeds `FlowOfFlows.compose` (lines 119-189) applied to the validated
`composing_flows` dict: the merged workflow it hands to the external
scheduler for registration, as a graph-construction state. -/
def compose (composing : List (String × Flow)) : Option ComposeState :=
  (composeGo composing composing 0 ⟨[], [], [], [], [], []⟩ none).map Prod.fst

/-- Number of `create_flow_run` nodes in a composed workflow. -/
def ComposeState.runCount (st : ComposeState) : Nat := st.runs.length

/-- The run-node count of `compose`, when composition does not crash. -/
def composeRunCount (l : List (String × Flow)) : Option Nat :=
  (compose l).map ComposeState.runCount

/-- The wait-node list of `compose` (entry `i` is the id of the run that wait
node `i` waits on), when composition does not crash. -/
def composeWaits (l : List (String × Flow)) : Option (List Nat) :=
  (compose l).map ComposeState.waits

/-- The upstream-edge list of `compose`, when composition does not crash. -/
def composeEdges (l : List (String × Flow)) : Option (List (Nat × Nat)) :=
  (compose l).map ComposeState.edges

/-- The flow name recorded on run node `i` of the composed workflow. -/
def composeRunName (l : List (String × Flow)) (i : Nat) : Option String :=
  match compose l with
  | none => none
  | some st => (st.runs.get? i).map RunNode.flowName

/-- The value run node `i` of the composed workflow passes for parameter `p`
(`some none` when the run exists but passes no such parameter). -/
def composeRunParam (l : List (String × Flow)) (i : Nat) (p : String) :
    Option (Option PValue) :=
  match compose l with
  | none => none
  | some st =>
    match st.runs.get? i with
    | none => none
    | some n => some (dget p n.parameters)

/-- A run node passes every non-mapped declared parameter of flow `f` under
its original name, valued by the `{flow_name}-{param}`-renamed `Parameter`
object. -/
def RunNode.paramSpec (f : Flow) (n : RunNode) : Prop :=
  ∀ q, q ∈ f.parameters → isMapped f.mappedParameters q = false →
    dget q n.parameters = some (PValue.param (n.flowName ++ "-" ++ q))

/-- The upstream edges of a composed workflow whose target is run node
`rid`. -/
def edgesInto (st : ComposeState) (rid : Nat) : List (Nat × Nat) :=
  st.edges.filter (fun e => decide (e.2 = rid))

/-! ### The local backend (local.py, lines 83-134) -/

/-- `{slug: task for task, slug in flow.slugs.items()}` (line 119). -/
def invertSlugsAux : List (String × String) → List (String × String) → List (String × String)
  | [], acc => acc
  | (task, slug) :: rest, acc => invertSlugsAux rest (dinsert slug task acc)

/-- The slug-to-task map of `run_and_return` (line 119). -/
def invertSlugs (slugs : List (String × String)) : List (String × String) :=
  invertSlugsAux slugs []

/-- The errors `run_and_return` can raise: `EmptyResultError` (line 117),
`TaskNotInFlowError` from lume_services.errors (line 126), and a raw Python
`KeyError` from `result[task]` (lines 128 and 133). -/
inductive RunReturnError where
  | emptyResult
  | taskNotInFlow
  | keyError
deriving DecidableEq, Repr

/-- The value of `run_and_return`: a single task's result (line 128) or a
slug-to-value dict over every task (lines 132-134). -/
inductive RunReturn (α : Type) where
  | single : α → RunReturn α
  | bySlug : List (String × α) → RunReturn α
deriving DecidableEq, Repr

/-- `{slug: result[task].result for slug, task in slug_to_task_map.items()}`
(lines 132-134). -/
def collectBySlug {α : Type} (result : List (String × α)) :
    List (String × String) → Option (List (String × α))
  | [] => some []
  | (slug, task) :: rest =>
    match dget task result with
    | none => none
    | some v =>
      match collectBySlug result rest with
      | none => none
      | some m => some ((slug, v) :: m)

/-- Embeds `LocalBackend.run_and_return` (local.py, lines 83-134) from the
point after the external `flow.run(parameters=data)` call: `runResult` is the
`flow_run.result` attribute of that external run (`none` when the Python
value is `None`), `slugs` is the flow's task-name-to-slug map `flow.slugs`,
and `task_slug` the optional requested slug.  The run-config plumbing of
lines 104-112 configures the external run and does not affect the returned
value. -/
def run_and_return {α : Type} (runResult : Option (List (String × α)))
    (slugs : List (String × String)) (task_slug : Option String) :
    Except RunReturnError (RunReturn α) :=
  match runResult with
  | none => .error .emptyResult
  | some result =>
    let slugToTask := invertSlugs slugs
    match task_slug with
    | some s =>
      match dget s slugToTask with
      | none => .error .taskNotInFlow
      | some task =>
        match dget task result with
        | none => .error .keyError
        | some v => .ok (.single v)
    | none =>
      match collectBySlug result slugToTask with
      | none => .error .keyError
      | some m => .ok (.bySlug m)

/-! ### The results store (modelled from the spec) -/

/-- Modelled from the spec: a `Result` document model (the
`lume_services.results` classes are not under the provided sources; §3 and §8
of the spec describe results as structured inputs/outputs keyed by flow).
The value type `α` abstracts the heterogeneous payloads (numbers, arrays,
tables) whose encoding the spec delegates to the database driver. -/
structure ResultModel (α : Type) where
  flow_id : String
  inputs : List (String × α)
  outputs : List (String × α)
deriving DecidableEq, Repr

/-- Modelled from the spec: the database representation produced by
`Result.get_db_dict()`. -/
structure ResultDoc (α : Type) where
  flow_id : String
  inputs : List (String × α)
  outputs : List (String × α)
deriving DecidableEq, Repr

/-- Modelled from the spec: `Result.get_db_dict()`. -/
def get_db_dict {α : Type} (r : ResultModel α) : ResultDoc α :=
  ⟨r.flow_id, r.inputs, r.outputs⟩

/-- Modelled from the spec: reconstructing a `Result` from a queried
document, as in `Result(**res[0])`. -/
def resultFromDoc {α : Type} (d : ResultDoc α) : ResultModel α :=
  ⟨d.flow_id, d.inputs, d.outputs⟩

/-- Modelled from the spec: "duplicate-key insert fails distinctly from other
insert errors" (§6). -/
inductive InsertError where
  | duplicateKey
  | otherInsertError
deriving DecidableEq, Repr

/-- Modelled from the spec: `insert_one` of the results store — inserting a
document whose logical key (its field values) is already present fails with
the duplicate-key error, otherwise the document is appended (§6, §8). -/
def insert_one {α : Type} [DecidableEq α] (store : List (ResultDoc α)) (doc : ResultDoc α) :
    Except InsertError (List (ResultDoc α)) :=
  if doc ∈ store then .error .duplicateKey else .ok (store ++ [doc])

/-- Modelled from the spec: a query by field values matches a stored
document when the queried fields are equal. -/
def docMatches {α : Type} [DecidableEq α] (q : ResultDoc α) (d : ResultDoc α) : Bool :=
  decide (d.flow_id = q.flow_id ∧ d.inputs = q.inputs ∧ d.outputs = q.outputs)

/-- Modelled from the spec: `find` of the results store — returns the stored
documents matching the query (§6, §8). -/
def find {α : Type} [DecidableEq α] (store : List (ResultDoc α)) (q : ResultDoc α) :
    List (ResultDoc α) :=
  store.filter (docMatches q)

/-! ### Concrete flows used by the evaluation theorems -/

/-- A registered flow with one parameter and one task, no mapped parameters. -/
def c1FlowA : Flow := ⟨"flow-a", "proj", ["alpha"], none, [("taskA", "taskA-slug")]⟩

/-- A second registered flow with no mapped parameters. -/
def c1FlowB : Flow := ⟨"flow-b", "proj", ["beta"], none, [("taskB", "taskB-slug")]⟩

/-- A two-flow composition in which neither flow has mapped parameters. -/
def c1Composing : List (String × Flow) := [("flow-a", c1FlowA), ("flow-b", c1FlowB)]

/-- A parent flow exposing task `taskA`. -/
def c2FlowA : Flow := ⟨"flow-a", "proj", [], none, [("taskA", "taskA-slug")]⟩

/-- A flow mapping its parameter `x` to task `taskA` of `flow-a`. -/
def c2FlowB : Flow :=
  ⟨"flow-b", "proj", ["x", "y"], some [("x", ⟨"x", "flow-a", "taskA"⟩)], []⟩

/-- The composition listing the child `flow-b` before its parent `flow-a`. -/
def c2Composing : List (String × Flow) := [("flow-b", c2FlowB), ("flow-a", c2FlowA)]

/-- The same two flows in parent-first order. -/
def c2GoodComposing : List (String × Flow) := [("flow-a", c2FlowA), ("flow-b", c2FlowB)]

/-- The workflow composed from `c2GoodComposing`. -/
def c2State : ComposeState :=
  ⟨[⟨"flow-a", "proj", []⟩,
    ⟨"flow-b", "proj",
      [("y", PValue.param "flow-b-y"), ("x", PValue.taskResult 0 "taskA-slug")]⟩],
   [0, 1], [(0, 1)], [("flow-b-y", "flow-b-y")],
   [("flow-a", 0), ("flow-b", 1)], [("flow-a", 0), ("flow-b", 1)]⟩

/-- The run node created for `flow-b` in `c2State`. -/
def c2RunB : RunNode :=
  ⟨"flow-b", "proj",
    [("y", PValue.param "flow-b-y"), ("x", PValue.taskResult 0 "taskA-slug")]⟩

/-- The workflow composed from `c1Composing`. -/
def c1State : ComposeState :=
  ⟨[⟨"flow-a", "proj", [("alpha", PValue.param "flow-a-alpha")]⟩],
   [0, 0], [],
   [("flow-a-alpha", "flow-a-alpha"), ("flow-b-beta", "flow-b-beta")],
   [("flow-a", 0), ("flow-b", 0)], [("flow-a", 0), ("flow-b", 1)]⟩

/-- The run node created for `flow-a` in `c1State`. -/
def c1RunA : RunNode := ⟨"flow-a", "proj", [("alpha", PValue.param "flow-a-alpha")]⟩

/-- A concrete result document model. -/
def c9Result : ResultModel Nat := ⟨"test_flow_id", [("input1", 2)], [("output1", 2)]⟩

/-- A flow whose mapped parameter `bad` is not among its declared parameters. -/
def c4Flow : Flow := ⟨"f1", "proj", ["a"], some [("bad", ⟨"bad", "f1", "taskA"⟩)], [("taskA", "s")]⟩

/-- A one-flow composition hitting the parameter-not-in-flow check. -/
def c4Flows : List (String × Flow) := [("f1", c4Flow)]

/-- A flow whose mapped parameter names the absent parent flow `ghost`. -/
def c5Flow : Flow := ⟨"f1", "proj", ["a"], some [("a", ⟨"a", "ghost", "taskA"⟩)], [("taskA", "s")]⟩

/-- A one-flow composition hitting the parent-flow-not-in-flows check. -/
def c5Flows : List (String × Flow) := [("f1", c5Flow)]

/-- A flow whose mapped parameter names an absent task of an existing parent. -/
def c6Flow : Flow := ⟨"f1", "proj", ["a"], some [("a", ⟨"a", "f1", "ghost-task"⟩)], [("taskA", "s")]⟩

/-- A one-flow composition hitting the task-not-in-flow check. -/
def c6Flows : List (String × Flow) := [("f1", c6Flow)]

/-- A flow passing validation (no mapped parameters). -/
def c7Good : Flow := ⟨"f0", "proj", ["a"], none, []⟩

/-- A flow failing the parameter check. -/
def c7Bad1 : Flow := ⟨"f1", "proj", [], some [("x", ⟨"x", "f0", "t"⟩)], []⟩

/-- A later flow that would fail the parent-flow check, never reached. -/
def c7Bad2 : Flow := ⟨"f2", "proj", ["y"], some [("y", ⟨"y", "ghost", "t"⟩)], []⟩

/-- A composition with two failing flows; validation reports only the first. -/
def c7Flows : List (String × Flow) := [("f0", c7Good), ("f1", c7Bad1), ("f2", c7Bad2)]

/-! ## Helper lemmas -/

theorem dget_dinsert_self {α : Type} (k : String) (v : α) (l : List (String × α)) :
    dget k (dinsert k v l) = some v := by
  induction l with
  | nil => simp [dget, dinsert]
  | cons hd tl ih =>
    obtain ⟨k', v'⟩ := hd
    by_cases h : k' = k
    · simp [dget, dinsert, h]
    · simp [dget, dinsert, h, ih]

theorem dget_dinsert_ne {α : Type} {k k' : String} (v : α) (l : List (String × α))
    (h : k' ≠ k) : dget k (dinsert k' v l) = dget k l := by
  induction l with
  | nil => simp [dget, dinsert, h]
  | cons hd tl ih =>
    obtain ⟨k'', v''⟩ := hd
    by_cases h2 : k'' = k'
    · subst h2
      simp [dget, dinsert, h]
    · by_cases h3 : k'' = k
      · subst h3
        simp [dget, dinsert, h2]
      · simp [dget, dinsert, h2, h3, ih]

theorem isSome_dget_dinsert {α : Type} {k : String} (k' : String) (v : α)
    {l : List (String × α)} (h : (dget k l).isSome) :
    (dget k (dinsert k' v l)).isSome := by
  by_cases he : k' = k
  · subst he
    simp [dget_dinsert_self]
  · rwa [dget_dinsert_ne v l he]

theorem dget_isSome_of_mem {α : Type} {k : String} {v : α} {l : List (String × α)}
    (h : (k, v) ∈ l) : (dget k l).isSome := by
  induction l with
  | nil => cases h
  | cons hd tl ih =>
    obtain ⟨k', v'⟩ := hd
    by_cases he : k' = k
    · simp [dget, he]
    · rcases List.mem_cons.mp h with h1 | h1
      · cases h1
        exact absurd rfl he
      · simpa [dget, he] using ih h1

theorem dget_eq_of_mem_nodup {α : Type} {k : String} {v : α} {l : List (String × α)}
    (hnd : (l.map Prod.fst).Nodup) (h : (k, v) ∈ l) : dget k l = some v := by
  induction l with
  | nil => cases h
  | cons hd tl ih =>
    obtain ⟨k', v'⟩ := hd
    simp only [List.map_cons, List.nodup_cons] at hnd
    rcases List.mem_cons.mp h with h1 | h1
    · cases h1
      simp [dget]
    · have hne : k' ≠ k := by
        intro he
        subst he
        exact hnd.1 (List.mem_map.mpr ⟨(k', v), h1, rfl⟩)
      simpa [dget, hne] using ih hnd.2 h1

theorem validateGo_append (flows l1 l2 : List (String × Flow)) :
    validateGo flows (l1 ++ l2) =
      match validateGo flows l1 with
      | .ok _ => validateGo flows l2
      | .error e => .error e := by
  induction l1 with
  | nil => simp [validateGo]
  | cons hd tl ih =>
    obtain ⟨fn, f⟩ := hd
    simp only [List.cons_append, validateGo]
    cases checkFlow flows fn f with
    | ok u => cases u; exact ih
    | error e => rfl

theorem checkFlowMapped_append (flows : List (String × Flow)) (flowName : String) (f : Flow)
    (l1 l2 : List (String × MappedParameter)) :
    checkFlowMapped flows flowName f (l1 ++ l2) =
      match checkFlowMapped flows flowName f l1 with
      | .ok _ => checkFlowMapped flows flowName f l2
      | .error e => .error e := by
  induction l1 with
  | nil => simp [checkFlowMapped]
  | cons hd tl ih =>
    obtain ⟨pname, mp⟩ := hd
    simp only [List.cons_append, checkFlowMapped]
    cases checkMappedParameter flows flowName f pname mp with
    | ok u => cases u; exact ih
    | error e => rfl

theorem setAdd_nil (x : String) : setAdd [] x = [x] := rfl

theorem addUpstreamEdges_spec (fw : List (String × Nat)) (rid : Nat) :
    ∀ (ups : List String) (edges edges2 : List (Nat × Nat)),
      addUpstreamEdges fw rid ups edges = some edges2 →
      ∃ d, edges2 = edges ++ d ∧ ∀ e ∈ d, e.2 = rid := by
  intro ups
  induction ups with
  | nil =>
    intro edges edges2 h
    simp only [addUpstreamEdges, Option.some.injEq] at h
    subst h
    exact ⟨[], by simp, by simp⟩
  | cons u rest ih =>
    intro edges edges2 h
    simp only [addUpstreamEdges] at h
    cases hw : dget u fw with
    | none => rw [hw] at h; cases h
    | some w =>
      rw [hw] at h
      obtain ⟨d, hd, hall⟩ := ih (edges ++ [(w, rid)]) edges2 h
      refine ⟨(w, rid) :: d, by simpa using hd, ?_⟩
      intro e he
      rcases List.mem_cons.mp he with he1 | he1
      · subst he1; rfl
      · exact hall e he1

theorem applyMapped_dget_preserve (c : List (String × Flow)) (fr : List (String × Nat))
    (q : String) :
    ∀ (mps : List (String × MappedParameter)) (fp : List (String × PValue))
      (ups : List String) (fp2 : List (String × PValue)) (ups2 : List String),
      applyMapped c fr mps fp ups = some (fp2, ups2) →
      dget q mps = none → dget q fp2 = dget q fp := by
  intro mps
  induction mps with
  | nil =>
    intro fp ups fp2 ups2 h hq
    simp only [applyMapped, Option.some.injEq, Prod.mk.injEq] at h
    rw [← h.1]
  | cons hd rest ih =>
    obtain ⟨pname, mp⟩ := hd
    intro fp ups fp2 ups2 h hq
    have hq2 : ¬ pname = q ∧ dget q rest = none := by
      by_cases hpq : pname = q
      · simp [dget, hpq] at hq
      · exact ⟨hpq, by simpa [dget, hpq] using hq⟩
    simp only [applyMapped] at h
    cases h1 : dget mp.parent_flow_name c with
    | none => rw [h1] at h; cases h
    | some parent =>
      rw [h1] at h
      dsimp only at h
      cases h2 : dget mp.parent_task_name parent.taskSlugs with
      | none => rw [h2] at h; cases h
      | some slug =>
        rw [h2] at h
        dsimp only at h
        cases h3 : dget mp.parent_flow_name fr with
        | none => rw [h3] at h; cases h
        | some rid =>
          rw [h3] at h
          dsimp only at h
          rw [ih _ _ _ _ h hq2.2, dget_dinsert_ne _ _ hq2.1]

theorem initFlowParamsAux_dget (fn : String) (m : Option (List (String × MappedParameter)))
    (q : String) (hq : isMapped m q = false) :
    ∀ (ps : List String) (fp : List (String × PValue)),
      (q ∈ ps ∨ dget q fp = some (PValue.param (fn ++ "-" ++ q))) →
      dget q (initFlowParamsAux fn m ps fp) = some (PValue.param (fn ++ "-" ++ q)) := by
  intro ps
  induction ps with
  | nil =>
    intro fp h
    rcases h with h | h
    · cases h
    · simpa [initFlowParamsAux] using h
  | cons p rest ih =>
    intro fp h
    simp only [initFlowParamsAux]
    apply ih
    by_cases hpq : p = q
    · subst hpq
      right
      simp [hq, dget_dinsert_self]
    · rcases h with h | h
      · rcases List.mem_cons.mp h with h2 | h2
        · exact absurd h2.symm hpq
        · exact Or.inl h2
      · right
        by_cases hm : isMapped m p
        · simpa [hm] using h
        · simpa [hm, dget_dinsert_ne _ _ hpq] using h

theorem registerFlowParamsAux_mono (fn : String) (m : Option (List (String × MappedParameter)))
    (k : String) :
    ∀ (ps : List String) (acc : List (String × String)), (dget k acc).isSome →
      (dget k (registerFlowParamsAux fn m ps acc)).isSome := by
  intro ps
  induction ps with
  | nil => intro acc h; simpa [registerFlowParamsAux] using h
  | cons p rest ih =>
    intro acc h
    simp only [registerFlowParamsAux]
    apply ih
    by_cases hm : isMapped m p
    · simpa [hm] using h
    · simpa [hm] using isSome_dget_dinsert (fn ++ "-" ++ p) (fn ++ "-" ++ p) h

theorem registerFlowParamsAux_mem (fn : String) (m : Option (List (String × MappedParameter)))
    (q : String) (hq : isMapped m q = false) :
    ∀ (ps : List String) (acc : List (String × String)), q ∈ ps →
      (dget (fn ++ "-" ++ q) (registerFlowParamsAux fn m ps acc)).isSome := by
  intro ps
  induction ps with
  | nil => intro acc h; cases h
  | cons p rest ih =>
    intro acc h
    rcases List.mem_cons.mp h with h2 | h2
    · subst h2
      simp only [registerFlowParamsAux]
      apply registerFlowParamsAux_mono
      simp [hq, dget_dinsert_self]
    · simp only [registerFlowParamsAux]
      exact ih _ h2

/-- Characterization of one iteration of the `compose` loop: the registry,
wait list and name maps are updated the same way in every branch, and either
a fresh run node for this flow is appended (carrying, for every non-mapped
name, the value from the renamed-parameter dict) together with edges
targeting it, or the iteration reuses the stale `flow_run` and adds no run
node and no edge. -/
theorem composeStep_spec (c : List (String × Flow)) (fn : String) (f : Flow) (i : Nat)
    (st : ComposeState) (cur : Option Nat) (st2 : ComposeState) (rid : Nat)
    (h : composeStep c fn f i st cur = some (st2, rid)) :
    st2.params = registerFlowParamsAux fn f.mappedParameters f.parameters st.params ∧
    st2.waits = st.waits ++ [rid] ∧
    st2.flowRuns = dinsert fn rid st.flowRuns ∧
    st2.flowWaits = dinsert fn st.waits.length st.flowWaits ∧
    ((∃ fp2 d, st2.runs = st.runs ++ [⟨fn, f.projectName, fp2⟩] ∧ rid = st.runs.length ∧
        st2.edges = st.edges ++ d ∧ (∀ e ∈ d, e.2 = st.runs.length) ∧
        ∀ q, isMapped f.mappedParameters q = false →
          dget q fp2 = dget q (initFlowParamsAux fn f.mappedParameters f.parameters [])) ∨
      (st2.runs = st.runs ∧ st2.edges = st.edges ∧ cur = some rid)) := by
  simp only [composeStep] at h
  by_cases hi : i = 0
  · rw [if_pos hi] at h
    simp only [Option.some.injEq, Prod.mk.injEq] at h
    obtain ⟨h1, h2⟩ := h
    subst h2
    subst h1
    refine ⟨rfl, rfl, rfl, rfl, Or.inl ⟨_, [], rfl, rfl, by simp, by simp, fun q _ => rfl⟩⟩
  · rw [if_neg hi] at h
    cases hm : f.mappedParameters with
    | none =>
      rw [hm] at h
      dsimp only at h
      cases hcur : cur with
      | none => rw [hcur] at h; cases h
      | some r =>
        rw [hcur] at h
        dsimp only at h
        simp only [Option.some.injEq, Prod.mk.injEq] at h
        obtain ⟨h1, h2⟩ := h
        subst h2
        subst h1
        exact ⟨rfl, rfl, rfl, rfl, Or.inr ⟨rfl, rfl, rfl⟩⟩
    | some mps =>
      rw [hm] at h
      dsimp only at h
      cases ha : applyMapped c st.flowRuns mps
          (initFlowParamsAux fn (some mps) f.parameters []) [] with
      | none => rw [ha] at h; cases h
      | some pair =>
        obtain ⟨fp2, ups⟩ := pair
        rw [ha] at h
        dsimp only at h
        cases he : addUpstreamEdges st.flowWaits st.runs.length ups st.edges with
        | none => rw [he] at h; cases h
        | some edges2 =>
          rw [he] at h
          dsimp only at h
          simp only [Option.some.injEq, Prod.mk.injEq] at h
          obtain ⟨h1, h2⟩ := h
          subst h2
          subst h1
          obtain ⟨d, hd, hall⟩ := addUpstreamEdges_spec st.flowWaits st.runs.length ups
            st.edges edges2 he
          refine ⟨rfl, rfl, rfl, rfl, Or.inl ⟨fp2, d, rfl, rfl, hd, hall, ?_⟩⟩
          intro q hqn
          have hqnone : dget q mps = none := by
            simp only [isMapped] at hqn
            cases hdq : dget q mps with
            | none => rfl
            | some _ => rw [hdq] at hqn; simp at hqn
          exact applyMapped_dget_preserve c st.flowRuns q mps _ [] fp2 ups ha hqnone

theorem composeGo_runs_mono (c : List (String × Flow)) :
    ∀ (L : List (String × Flow)) (i : Nat) (st : ComposeState) (cur : Option Nat)
      (st2 : ComposeState) (cur2 : Option Nat),
      composeGo c L i st cur = some (st2, cur2) → ∃ d, st2.runs = st.runs ++ d := by
  intro L
  induction L with
  | nil =>
    intro i st cur st2 cur2 h
    simp only [composeGo, Option.some.injEq, Prod.mk.injEq] at h
    obtain ⟨h1, _⟩ := h
    subst h1
    exact ⟨[], by simp⟩
  | cons hd rest ih =>
    obtain ⟨fn, f⟩ := hd
    intro i st cur st2 cur2 h
    simp only [composeGo] at h
    cases hs : composeStep c fn f i st cur with
    | none => rw [hs] at h; cases h
    | some pair =>
      obtain ⟨st1, rid⟩ := pair
      rw [hs] at h
      obtain ⟨d2, h2⟩ := ih (i + 1) st1 (some rid) st2 cur2 h
      obtain ⟨_, _, _, _, hruns⟩ := composeStep_spec c fn f i st cur st1 rid hs
      rcases hruns with ⟨fp2, d, hr, _, _, _, _⟩ | ⟨hr, _, _⟩
      · exact ⟨[⟨fn, f.projectName, fp2⟩] ++ d2, by rw [h2, hr, List.append_assoc]⟩
      · exact ⟨d2, by rw [h2, hr]⟩

theorem composeGo_edges_new (c : List (String × Flow)) :
    ∀ (L : List (String × Flow)) (i : Nat) (st : ComposeState) (cur : Option Nat)
      (st2 : ComposeState) (cur2 : Option Nat),
      composeGo c L i st cur = some (st2, cur2) →
      ∃ d, st2.edges = st.edges ++ d ∧ ∀ e ∈ d, st.runs.length ≤ e.2 := by
  intro L
  induction L with
  | nil =>
    intro i st cur st2 cur2 h
    simp only [composeGo, Option.some.injEq, Prod.mk.injEq] at h
    obtain ⟨h1, _⟩ := h
    subst h1
    exact ⟨[], by simp, by simp⟩
  | cons hd rest ih =>
    obtain ⟨fn, f⟩ := hd
    intro i st cur st2 cur2 h
    simp only [composeGo] at h
    cases hs : composeStep c fn f i st cur with
    | none => rw [hs] at h; cases h
    | some pair =>
      obtain ⟨st1, rid⟩ := pair
      rw [hs] at h
      obtain ⟨d2, h2, hall2⟩ := ih (i + 1) st1 (some rid) st2 cur2 h
      obtain ⟨_, _, _, _, hruns⟩ := composeStep_spec c fn f i st cur st1 rid hs
      rcases hruns with ⟨fp2, d, hr, _, hedg, hall, _⟩ | ⟨hr, hedg, _⟩
      · refine ⟨d ++ d2, by rw [h2, hedg, List.append_assoc], ?_⟩
        intro e he
        rcases List.mem_append.mp he with he1 | he1
        · rw [hall e he1]
        · have := hall2 e he1
          rw [hr] at this
          simp only [List.length_append] at this
          omega
      · refine ⟨d2, by rw [h2, hedg], ?_⟩
        intro e he
        have := hall2 e he
        rw [hr] at this
        exact this

theorem composeGo_edges_valid (c : List (String × Flow)) :
    ∀ (L : List (String × Flow)) (i : Nat) (st : ComposeState) (cur : Option Nat)
      (st2 : ComposeState) (cur2 : Option Nat),
      composeGo c L i st cur = some (st2, cur2) →
      (∀ e ∈ st.edges, e.2 < st.runs.length) →
      ∀ e ∈ st2.edges, e.2 < st2.runs.length := by
  intro L
  induction L with
  | nil =>
    intro i st cur st2 cur2 h hv
    simp only [composeGo, Option.some.injEq, Prod.mk.injEq] at h
    obtain ⟨h1, _⟩ := h
    subst h1
    exact hv
  | cons hd rest ih =>
    obtain ⟨fn, f⟩ := hd
    intro i st cur st2 cur2 h hv
    simp only [composeGo] at h
    cases hs : composeStep c fn f i st cur with
    | none => rw [hs] at h; cases h
    | some pair =>
      obtain ⟨st1, rid⟩ := pair
      rw [hs] at h
      apply ih (i + 1) st1 (some rid) st2 cur2 h
      obtain ⟨_, _, _, _, hruns⟩ := composeStep_spec c fn f i st cur st1 rid hs
      rcases hruns with ⟨fp2, d, hr, _, hedg, hall, _⟩ | ⟨hr, hedg, _⟩
      · intro e he
        rw [hedg] at he
        rw [hr]
        simp only [List.length_append, List.length_cons, List.length_nil]
        rcases List.mem_append.mp he with he1 | he1
        · have := hv e he1
          omega
        · have := hall e he1
          omega
      · intro e he
        rw [hedg] at he
        rw [hr]
        exact hv e he

theorem composeGo_maps_frozen (c : List (String × Flow)) (k : String) :
    ∀ (L : List (String × Flow)) (i : Nat) (st : ComposeState) (cur : Option Nat)
      (st2 : ComposeState) (cur2 : Option Nat),
      composeGo c L i st cur = some (st2, cur2) →
      k ∉ L.map Prod.fst →
      dget k st2.flowRuns = dget k st.flowRuns ∧
        dget k st2.flowWaits = dget k st.flowWaits := by
  intro L
  induction L with
  | nil =>
    intro i st cur st2 cur2 h _
    simp only [composeGo, Option.some.injEq, Prod.mk.injEq] at h
    obtain ⟨h1, _⟩ := h
    subst h1
    exact ⟨rfl, rfl⟩
  | cons hd rest ih =>
    obtain ⟨fn, f⟩ := hd
    intro i st cur st2 cur2 h hk
    simp only [List.map_cons, List.mem_cons] at hk
    push_neg at hk
    simp only [composeGo] at h
    cases hs : composeStep c fn f i st cur with
    | none => rw [hs] at h; cases h
    | some pair =>
      obtain ⟨st1, rid⟩ := pair
      rw [hs] at h
      obtain ⟨ih1, ih2⟩ := ih (i + 1) st1 (some rid) st2 cur2 h hk.2
      obtain ⟨_, _, hfr, hfw, _⟩ := composeStep_spec c fn f i st cur st1 rid hs
      have hne : fn ≠ k := fun he => hk.1 he.symm
      constructor
      · rw [ih1, hfr, dget_dinsert_ne _ _ hne]
      · rw [ih2, hfw, dget_dinsert_ne _ _ hne]

theorem composeGo_maps_mono (c : List (String × Flow)) (k : String) :
    ∀ (L : List (String × Flow)) (i : Nat) (st : ComposeState) (cur : Option Nat)
      (st2 : ComposeState) (cur2 : Option Nat),
      composeGo c L i st cur = some (st2, cur2) →
      (dget k st.flowRuns).isSome → (dget k st.flowWaits).isSome →
      (dget k st2.flowRuns).isSome ∧ (dget k st2.flowWaits).isSome := by
  intro L
  induction L with
  | nil =>
    intro i st cur st2 cur2 h h1 h2
    simp only [composeGo, Option.some.injEq, Prod.mk.injEq] at h
    obtain ⟨he, _⟩ := h
    subst he
    exact ⟨h1, h2⟩
  | cons hd rest ih =>
    obtain ⟨fn, f⟩ := hd
    intro i st cur st2 cur2 h h1 h2
    simp only [composeGo] at h
    cases hs : composeStep c fn f i st cur with
    | none => rw [hs] at h; cases h
    | some pair =>
      obtain ⟨st1, rid⟩ := pair
      rw [hs] at h
      obtain ⟨_, _, hfr, hfw, _⟩ := composeStep_spec c fn f i st cur st1 rid hs
      apply ih (i + 1) st1 (some rid) st2 cur2 h
      · rw [hfr]; exact isSome_dget_dinsert _ _ h1
      · rw [hfw]; exact isSome_dget_dinsert _ _ h2

theorem composeGo_maps_isSome (c : List (String × Flow)) (k : String) (v : Flow) :
    ∀ (L : List (String × Flow)) (i : Nat) (st : ComposeState) (cur : Option Nat)
      (st2 : ComposeState) (cur2 : Option Nat),
      composeGo c L i st cur = some (st2, cur2) →
      (k, v) ∈ L →
      (dget k st2.flowRuns).isSome ∧ (dget k st2.flowWaits).isSome := by
  intro L
  induction L with
  | nil => intro i st cur st2 cur2 _ hm; cases hm
  | cons hd rest ih =>
    obtain ⟨fn, f⟩ := hd
    intro i st cur st2 cur2 h hm
    simp only [composeGo] at h
    cases hs : composeStep c fn f i st cur with
    | none => rw [hs] at h; cases h
    | some pair =>
      obtain ⟨st1, rid⟩ := pair
      rw [hs] at h
      rcases List.mem_cons.mp hm with hm1 | hm1
      · obtain ⟨_, _, hfr, hfw, _⟩ := composeStep_spec c fn f i st cur st1 rid hs
        have hk : fn = k := congrArg Prod.fst hm1.symm
        subst hk
        apply composeGo_maps_mono c fn rest (i + 1) st1 (some rid) st2 cur2 h
        · rw [hfr, dget_dinsert_self]; rfl
        · rw [hfw, dget_dinsert_self]; rfl
      · exact ih (i + 1) st1 (some rid) st2 cur2 h hm1

theorem composeGo_params_mono (c : List (String × Flow)) (k : String) :
    ∀ (L : List (String × Flow)) (i : Nat) (st : ComposeState) (cur : Option Nat)
      (st2 : ComposeState) (cur2 : Option Nat),
      composeGo c L i st cur = some (st2, cur2) →
      (dget k st.params).isSome → (dget k st2.params).isSome := by
  intro L
  induction L with
  | nil =>
    intro i st cur st2 cur2 h h1
    simp only [composeGo, Option.some.injEq, Prod.mk.injEq] at h
    obtain ⟨he, _⟩ := h
    subst he
    exact h1
  | cons hd rest ih =>
    obtain ⟨fn, f⟩ := hd
    intro i st cur st2 cur2 h h1
    simp only [composeGo] at h
    cases hs : composeStep c fn f i st cur with
    | none => rw [hs] at h; cases h
    | some pair =>
      obtain ⟨st1, rid⟩ := pair
      rw [hs] at h
      obtain ⟨hp, _⟩ := composeStep_spec c fn f i st cur st1 rid hs
      apply ih (i + 1) st1 (some rid) st2 cur2 h
      rw [hp]
      exact registerFlowParamsAux_mono fn f.mappedParameters k f.parameters st.params h1

theorem composeGo_params_mem (c : List (String × Flow)) :
    ∀ (L : List (String × Flow)) (i : Nat) (st : ComposeState) (cur : Option Nat)
      (st2 : ComposeState) (cur2 : Option Nat) (fn : String) (f : Flow) (q : String),
      composeGo c L i st cur = some (st2, cur2) →
      (fn, f) ∈ L → q ∈ f.parameters → isMapped f.mappedParameters q = false →
      (dget (fn ++ "-" ++ q) st2.params).isSome := by
  intro L
  induction L with
  | nil => intro i st cur st2 cur2 fn f q _ hm; cases hm
  | cons hd rest ih =>
    obtain ⟨fn', f'⟩ := hd
    intro i st cur st2 cur2 fn f q h hm hq hnm
    simp only [composeGo] at h
    cases hs : composeStep c fn' f' i st cur with
    | none => rw [hs] at h; cases h
    | some pair =>
      obtain ⟨st1, rid⟩ := pair
      rw [hs] at h
      rcases List.mem_cons.mp hm with hm1 | hm1
      · obtain ⟨hf1, hf2⟩ := Prod.mk.injEq .. ▸ hm1
        subst hf1
        subst hf2
        obtain ⟨hp, _⟩ := composeStep_spec c fn f i st cur st1 rid hs
        apply composeGo_params_mono c (fn ++ "-" ++ q) rest (i + 1) st1 (some rid) st2 cur2 h
        rw [hp]
        exact registerFlowParamsAux_mem fn f.mappedParameters q hnm f.parameters st.params hq
      · exact ih (i + 1) st1 (some rid) st2 cur2 fn f q h hm1 hq hnm

theorem composeGo_runs_charac (c : List (String × Flow)) :
    ∀ (L : List (String × Flow)) (i : Nat) (st : ComposeState) (cur : Option Nat)
      (st2 : ComposeState) (cur2 : Option Nat),
      composeGo c L i st cur = some (st2, cur2) →
      ∀ n ∈ st2.runs, n ∈ st.runs ∨
        ∃ fn f, (fn, f) ∈ L ∧ n.flowName = fn ∧ RunNode.paramSpec f n := by
  intro L
  induction L with
  | nil =>
    intro i st cur st2 cur2 h n hn
    simp only [composeGo, Option.some.injEq, Prod.mk.injEq] at h
    obtain ⟨he, _⟩ := h
    subst he
    exact Or.inl hn
  | cons hd rest ih =>
    obtain ⟨fn', f'⟩ := hd
    intro i st cur st2 cur2 h n hn
    simp only [composeGo] at h
    cases hs : composeStep c fn' f' i st cur with
    | none => rw [hs] at h; cases h
    | some pair =>
      obtain ⟨st1, rid⟩ := pair
      rw [hs] at h
      rcases ih (i + 1) st1 (some rid) st2 cur2 h n hn with hin | ⟨fn, f, hmem, hname, hspec⟩
      · obtain ⟨_, _, _, _, hruns⟩ := composeStep_spec c fn' f' i st cur st1 rid hs
        rcases hruns with ⟨fp2, d, hr, _, _, _, hpres⟩ | ⟨hr, _, _⟩
        · rw [hr] at hin
          rcases List.mem_append.mp hin with hin1 | hin1
          · exact Or.inl hin1
          · right
            refine ⟨fn', f', List.mem_cons_self _ _, ?_, ?_⟩
            · rw [List.mem_singleton.mp hin1]
            · intro q hqmem hqnm
              rw [List.mem_singleton.mp hin1]
              simp only
              rw [hpres q hqnm]
              exact initFlowParamsAux_dget fn' f'.mappedParameters q hqnm
                f'.parameters [] (Or.inl hqmem)
        · rw [hr] at hin
          exact Or.inl hin
      · exact Or.inr ⟨fn, f, List.mem_cons_of_mem _ hmem, hname, hspec⟩

theorem composeGo_append (c : List (String × Flow)) :
    ∀ (l1 l2 : List (String × Flow)) (i : Nat) (st : ComposeState) (cur : Option Nat),
      composeGo c (l1 ++ l2) i st cur =
        match composeGo c l1 i st cur with
        | none => none
        | some (st1, cur1) => composeGo c l2 (i + l1.length) st1 cur1 := by
  intro l1
  induction l1 with
  | nil => intro l2 i st cur; simp [composeGo]
  | cons hd tl ih =>
    obtain ⟨fn, f⟩ := hd
    intro l2 i st cur
    simp only [List.cons_append, composeGo]
    cases hs : composeStep c fn f i st cur with
    | none => rfl
    | some pair =>
      obtain ⟨st1, rid⟩ := pair
      dsimp only
      rw [List.append_eq, ih l2 (i + 1) st1 (some rid)]
      cases hrest : composeGo c tl (i + 1) st1 (some rid) with
      | none => rfl
      | some pair2 =>
        obtain ⟨sta, cura⟩ := pair2
        dsimp only
        simp only [List.length_cons]
        have harith : i + (tl.length + 1) = i + 1 + tl.length := by omega
        rw [harith]

theorem invertSlugsAux_not_mem (s : String) :
    ∀ (l acc : List (String × String)), s ∉ l.map Prod.snd → dget s acc = none →
      dget s (invertSlugsAux l acc) = none := by
  intro l
  induction l with
  | nil => intro acc _ hacc; simpa [invertSlugsAux] using hacc
  | cons hd rest ih =>
    obtain ⟨task, slug⟩ := hd
    intro acc h hacc
    simp only [List.map_cons, List.mem_cons] at h
    push_neg at h
    simp only [invertSlugsAux]
    apply ih _ h.2
    rw [dget_dinsert_ne _ _ (fun he => h.1 he.symm)]
    exact hacc

/-- Validation fails with the error of the first failing check: all flows
before `(fn, f)` pass, and within `f` all mapped parameters before the failing
one pass, so `checkMappedParameter`'s error is the one raised. -/
theorem validateFlows_error_at (flows pre post : List (String × Flow)) (fn : String)
    (f : Flow) (e : FofError)
    (hflows : flows = pre ++ (fn, f) :: post)
    (hpre : validateGo flows pre = .ok ())
    (hfail : checkFlow flows fn f = .error e) :
    validateFlows flows = .error e := by
  have hgo : validateGo flows flows = .error e := by
    nth_rewrite 2 [hflows]
    rw [validateGo_append, hpre]
    simp [validateGo, hfail]
  simp [validateFlows, hgo]

/-! ## Claims about the validation loop -/

/-- C4: a mapped parameter whose target name is absent from the owning flow's
declared parameter set makes construction fail with `ParameterNotInFlowError`
carrying that parameter name and that flow name.  The hypotheses place the
offending mapped parameter at the first failing check in declaration order
(validation raises at the first failure, see C7). -/
theorem fof_C4_parameter_not_in_flow
    (flows pre post : List (String × Flow)) (fn : String) (f : Flow)
    (mps mpre mpost : List (String × MappedParameter)) (p : String) (mp : MappedParameter)
    (hflows : flows = pre ++ (fn, f) :: post)
    (hpre : validateGo flows pre = .ok ())
    (hmps : f.mappedParameters = some mps)
    (hsplit : mps = mpre ++ (p, mp) :: mpost)
    (hmpre : checkFlowMapped flows fn f mpre = .ok ())
    (hbad : p ∉ f.parameters) :
    validateFlows flows = .error (.parameterNotInFlow (mkParameterNotInFlowError p fn)) := by
  apply validateFlows_error_at flows pre post fn f _ hflows hpre
  have hcheckp : checkMappedParameter flows fn f p mp =
      .error (.parameterNotInFlow (mkParameterNotInFlowError p fn)) := by
    simp [checkMappedParameter, hbad]
  simp only [checkFlow, hmps, hsplit]
  rw [checkFlowMapped_append, hmpre]
  simp [checkFlowMapped, hcheckp]

/-- Witness for C4 at a concrete composition. -/
theorem fof_C4_witness :
    validateFlows c4Flows =
      .error (.parameterNotInFlow (mkParameterNotInFlowError "bad" "f1")) :=
  fof_C4_parameter_not_in_flow c4Flows [] [] "f1" c4Flow
    [("bad", ⟨"bad", "f1", "taskA"⟩)] [] [] "bad" ⟨"bad", "f1", "taskA"⟩
    rfl rfl rfl rfl rfl (by decide)

/-- C5: a mapped parameter whose parent flow name is absent from the
composing set makes construction fail with `ParentFlowNotInFlowsError`
carrying the missing name and the list of known flow names.  The hypotheses
place this check at the first failure (the parameter-membership check of the
same mapped parameter, which the source runs first, passes). -/
theorem fof_C5_parent_flow_not_in_flows
    (flows pre post : List (String × Flow)) (fn : String) (f : Flow)
    (mps mpre mpost : List (String × MappedParameter)) (p : String) (mp : MappedParameter)
    (hflows : flows = pre ++ (fn, f) :: post)
    (hpre : validateGo flows pre = .ok ())
    (hmps : f.mappedParameters = some mps)
    (hsplit : mps = mpre ++ (p, mp) :: mpost)
    (hmpre : checkFlowMapped flows fn f mpre = .ok ())
    (hparam : p ∈ f.parameters)
    (hbad : dget mp.parent_flow_name flows = none) :
    validateFlows flows =
      .error (.parentFlowNotInFlows
        (mkParentFlowNotInFlowsError mp.parent_flow_name (flows.map Prod.fst))) := by
  apply validateFlows_error_at flows pre post fn f _ hflows hpre
  have hcheckp : checkMappedParameter flows fn f p mp =
      .error (.parentFlowNotInFlows
        (mkParentFlowNotInFlowsError mp.parent_flow_name (flows.map Prod.fst))) := by
    simp [checkMappedParameter, hparam, hbad]
  simp only [checkFlow, hmps, hsplit]
  rw [checkFlowMapped_append, hmpre]
  simp [checkFlowMapped, hcheckp]

/-- Witness for C5 at a concrete composition. -/
theorem fof_C5_witness :
    validateFlows c5Flows =
      .error (.parentFlowNotInFlows (mkParentFlowNotInFlowsError "ghost" ["f1"])) :=
  fof_C5_parent_flow_not_in_flows c5Flows [] [] "f1" c5Flow
    [("a", ⟨"a", "ghost", "taskA"⟩)] [] [] "a" ⟨"a", "ghost", "taskA"⟩
    rfl rfl rfl rfl rfl (by decide) rfl

/-- C6: a mapped parameter whose parent task name is absent from the parent
flow's task set makes construction fail with `TaskNotInFlowError` carrying
the parent flow name and the parent task name (in that argument order).  The
hypotheses place this check at the first failure (the two checks the source
runs before it pass). -/
theorem fof_C6_task_not_in_flow
    (flows pre post : List (String × Flow)) (fn : String) (f parentFlow : Flow)
    (mps mpre mpost : List (String × MappedParameter)) (p : String) (mp : MappedParameter)
    (hflows : flows = pre ++ (fn, f) :: post)
    (hpre : validateGo flows pre = .ok ())
    (hmps : f.mappedParameters = some mps)
    (hsplit : mps = mpre ++ (p, mp) :: mpost)
    (hmpre : checkFlowMapped flows fn f mpre = .ok ())
    (hparam : p ∈ f.parameters)
    (hparent : dget mp.parent_flow_name flows = some parentFlow)
    (hbad : dget mp.parent_task_name parentFlow.taskSlugs = none) :
    validateFlows flows =
      .error (.taskNotInFlow
        (mkTaskNotInFlowError mp.parent_flow_name mp.parent_task_name)) := by
  apply validateFlows_error_at flows pre post fn f _ hflows hpre
  have hcheckp : checkMappedParameter flows fn f p mp =
      .error (.taskNotInFlow
        (mkTaskNotInFlowError mp.parent_flow_name mp.parent_task_name)) := by
    simp [checkMappedParameter, hparam, hparent, hbad]
  simp only [checkFlow, hmps, hsplit]
  rw [checkFlowMapped_append, hmpre]
  simp [checkFlowMapped, hcheckp]

/-- Witness for C6 at a concrete composition. -/
theorem fof_C6_witness :
    validateFlows c6Flows =
      .error (.taskNotInFlow (mkTaskNotInFlowError "f1" "ghost-task")) :=
  fof_C6_task_not_in_flow c6Flows [] [] "f1" c6Flow c6Flow
    [("a", ⟨"a", "f1", "ghost-task"⟩)] [] [] "a" ⟨"a", "f1", "ghost-task"⟩
    rfl rfl rfl rfl rfl (by decide) rfl rfl

/-- C7: validation raises at the first failing flow: when every flow before
`(fn, f)` passes all of its mapped-parameter checks and `f`'s own check
raises `e`, construction fails with exactly `e` — the flows after `f`
(`post` is arbitrary, and may contain further violations) are never reported:
a single error, no aggregation. -/
theorem fof_C7_stops_at_first_failing_flow
    (flows pre post : List (String × Flow)) (fn : String) (f : Flow) (e : FofError)
    (hflows : flows = pre ++ (fn, f) :: post)
    (hpre : validateGo flows pre = .ok ())
    (hfail : checkFlow flows fn f = .error e) :
    validateFlows flows = .error e :=
  validateFlows_error_at flows pre post fn f e hflows hpre hfail

/-- Witness for C7: with two failing flows, only the first one's error is
reported. -/
theorem fof_C7_witness :
    validateFlows c7Flows =
      .error (.parameterNotInFlow (mkParameterNotInFlowError "x" "f1")) :=
  fof_C7_stops_at_first_failing_flow c7Flows [("f0", c7Good)] [("f2", c7Bad2)]
    "f1" c7Bad1 (.parameterNotInFlow (mkParameterNotInFlowError "x" "f1"))
    rfl rfl rfl

/-! ## Claims about the composition -/

/-- C1: the claim states that composing N flows, none of which has mapped
parameters, yields N run nodes and N wait nodes with no upstream edges.  At
the failing input `c1Composing` (two flows without mapped parameters, which
passes validation) `compose` creates only ONE run node: the second flow's
`create_flow_run` call is nested inside the mapped-parameter branch and is
skipped, so the second wait node is attached to the stale run of the first
flow (`waits = [0, 0]`).  Wait nodes and upstream edges match the claim
(2 waits, no edges); the run-node count does not. -/
theorem fof_C1_skip_eval :
    validateFlows c1Composing = .ok c1Composing ∧
    composeRunCount c1Composing = some 1 ∧
    composeWaits c1Composing = some [0, 0] ∧
    composeEdges c1Composing = some [] :=
  ⟨rfl, rfl, rfl, rfl⟩

/-- C2 counterexample: `c2Composing` is a FlowOfFlows (it passes validation)
in which `flow-b` declares exactly one mapped parameter `x` sourced from task
`taskA` of `flow-a` — but because `flow-b` is listed first, `compose`
produces NO upstream edge at all, and `flow-b`'s run request carries no value
for `x` (in particular no deferred task-run-result reference). -/
theorem fof_C2_counterexample :
    validateFlows c2Composing = .ok c2Composing ∧
    composeEdges c2Composing = some [] ∧
    composeRunCount c2Composing = some 1 ∧
    composeRunName c2Composing 0 = some "flow-b" ∧
    composeRunParam c2Composing 0 "x" = some none :=
  ⟨rfl, rfl, rfl, rfl, rfl⟩

/-- C2 (amended): in any FlowOfFlows in which flow B declares exactly one
mapped parameter sourced from a task of flow A and A precedes B in the
composing order, `compose` produces exactly one upstream edge into B's run
node, namely from A's wait node, and the value B's run request passes for
that parameter is a deferred task-run-result reference (A's run id and the
parent task's slug), not a literal. -/
theorem fof_C2_amended
    (composing pre post : List (String × Flow)) (bn : String) (B A : Flow)
    (p slug : String) (mp : MappedParameter) (st : ComposeState)
    (wA rA rB : Nat) (n : RunNode)
    (hsplit : composing = pre ++ (bn, B) :: post)
    (hnd : (composing.map Prod.fst).Nodup)
    (hmapped : B.mappedParameters = some [(p, mp)])
    (hA : (mp.parent_flow_name, A) ∈ pre)
    (hslug : dget mp.parent_task_name A.taskSlugs = some slug)
    (hc : compose composing = some st)
    (hwA : dget mp.parent_flow_name st.flowWaits = some wA)
    (hrA : dget mp.parent_flow_name st.flowRuns = some rA)
    (hrB : dget bn st.flowRuns = some rB)
    (hn : st.runs.get? rB = some n) :
    edgesInto st rB = [(wA, rB)] ∧
    n.flowName = bn ∧
    dget p n.parameters = some (PValue.taskResult rA slug) := by
  subst hsplit
  obtain ⟨cur0, hgo⟩ : ∃ cur0,
      composeGo (pre ++ (bn, B) :: post) (pre ++ (bn, B) :: post) 0
        ⟨[], [], [], [], [], []⟩ none = some (st, cur0) := by
    unfold compose at hc
    cases hg : composeGo (pre ++ (bn, B) :: post) (pre ++ (bn, B) :: post) 0
        ⟨[], [], [], [], [], []⟩ none with
    | none => rw [hg] at hc; cases hc
    | some pair =>
      obtain ⟨st0, cur0⟩ := pair
      rw [hg] at hc
      simp only [Option.map_some', Option.some.injEq] at hc
      exact ⟨cur0, by rw [hc]⟩
  rw [composeGo_append] at hgo
  cases hpre : composeGo (pre ++ (bn, B) :: post) pre 0 ⟨[], [], [], [], [], []⟩ none with
  | none => rw [hpre] at hgo; cases hgo
  | some pair1 =>
    obtain ⟨st1, cur1⟩ := pair1
    rw [hpre] at hgo
    dsimp only at hgo
    rw [Nat.zero_add] at hgo
    -- facts established by the prefix
    have hprelen : ¬ pre.length = 0 := by
      intro h0
      rw [List.length_eq_zero] at h0
      subst h0
      cases hA
    have hAC : (mp.parent_flow_name, A) ∈ pre ++ (bn, B) :: post :=
      List.mem_append.mpr (Or.inl hA)
    have hgetA : dget mp.parent_flow_name (pre ++ (bn, B) :: post) = some A :=
      dget_eq_of_mem_nodup hnd hAC
    have hmaps1 := composeGo_maps_isSome (pre ++ (bn, B) :: post) mp.parent_flow_name A pre 0
      ⟨[], [], [], [], [], []⟩ none st1 cur1 hpre hA
    obtain ⟨rA0, hrA0⟩ := Option.isSome_iff_exists.mp hmaps1.1
    obtain ⟨wA0, hwA0⟩ := Option.isSome_iff_exists.mp hmaps1.2
    have hvalid1 : ∀ e ∈ st1.edges, e.2 < st1.runs.length := by
      apply composeGo_edges_valid (pre ++ (bn, B) :: post) pre 0
        ⟨[], [], [], [], [], []⟩ none st1 cur1 hpre
      intro e he
      exact absurd he (List.not_mem_nil e)
    -- dissect the Nodup hypothesis
    rw [List.map_append, List.map_cons, List.nodup_append] at hnd
    obtain ⟨hndpre, hndpost, hdisj⟩ := hnd
    have hanpre : mp.parent_flow_name ∈ pre.map Prod.fst :=
      List.mem_map.mpr ⟨(mp.parent_flow_name, A), hA, rfl⟩
    have han_ne : mp.parent_flow_name ≠ bn :=
      fun he => hdisj hanpre (by rw [he]; exact List.mem_cons_self _ _)
    have han_notpost : mp.parent_flow_name ∉ post.map Prod.fst :=
      fun hm => hdisj hanpre (List.mem_cons_of_mem _ hm)
    have hbnotpost : bn ∉ post.map Prod.fst := (List.nodup_cons.mp hndpost).1
    -- evaluate the step that creates B's run
    have happ : applyMapped (pre ++ (bn, B) :: post) st1.flowRuns [(p, mp)]
        (initFlowParamsAux bn (some [(p, mp)]) B.parameters []) [] =
        some (dinsert p (PValue.taskResult rA0 slug)
          (initFlowParamsAux bn (some [(p, mp)]) B.parameters []),
          [mp.parent_flow_name]) := by
      simp only [applyMapped, hgetA, hslug, hrA0]
      simp [setAdd]
    have hedge : addUpstreamEdges st1.flowWaits st1.runs.length [mp.parent_flow_name]
        st1.edges = some (st1.edges ++ [(wA0, st1.runs.length)]) := by
      simp [addUpstreamEdges, hwA0]
    have hstep : composeStep (pre ++ (bn, B) :: post) bn B pre.length st1 cur1 =
        some (⟨st1.runs ++ [⟨bn, B.projectName,
            dinsert p (PValue.taskResult rA0 slug)
              (initFlowParamsAux bn (some [(p, mp)]) B.parameters [])⟩],
          st1.waits ++ [st1.runs.length],
          st1.edges ++ [(wA0, st1.runs.length)],
          registerFlowParamsAux bn (some [(p, mp)]) B.parameters st1.params,
          dinsert bn st1.runs.length st1.flowRuns,
          dinsert bn st1.waits.length st1.flowWaits⟩,
          st1.runs.length) := by
      simp only [composeStep, hmapped]
      rw [if_neg hprelen]
      rw [happ]
      dsimp only
      rw [hedge]
    simp only [composeGo] at hgo
    rw [hstep] at hgo
    -- the suffix leaves B's and A's entries untouched
    obtain ⟨hfrB, hfwB⟩ := composeGo_maps_frozen (pre ++ (bn, B) :: post) bn post
      (pre.length + 1) _ (some st1.runs.length) st cur0 hgo hbnotpost
    obtain ⟨hfrA, hfwA⟩ := composeGo_maps_frozen (pre ++ (bn, B) :: post)
      mp.parent_flow_name post (pre.length + 1) _ (some st1.runs.length) st cur0 hgo
      han_notpost
    rw [hfrB, dget_dinsert_self] at hrB
    simp only [Option.some.injEq] at hrB
    subst hrB
    have hbnan : bn ≠ mp.parent_flow_name := fun he => han_ne he.symm
    rw [hfrA, dget_dinsert_ne _ _ hbnan, hrA0] at hrA
    simp only [Option.some.injEq] at hrA
    subst hrA
    rw [hfwA, dget_dinsert_ne _ _ hbnan, hwA0] at hwA
    simp only [Option.some.injEq] at hwA
    subst hwA
    -- identify B's run node
    obtain ⟨dr, hdr⟩ := composeGo_runs_mono (pre ++ (bn, B) :: post) post
      (pre.length + 1) _ (some st1.runs.length) st cur0 hgo
    rw [hdr] at hn
    rw [List.get?_append (by simp)] at hn
    rw [List.get?_concat_length] at hn
    simp only [Option.some.injEq] at hn
    subst hn
    -- the three conclusions
    refine ⟨?_, rfl, by dsimp only; rw [dget_dinsert_self]⟩
    obtain ⟨de, hde, hdeall⟩ := composeGo_edges_new (pre ++ (bn, B) :: post) post
      (pre.length + 1) _ (some st1.runs.length) st cur0 hgo
    rw [edgesInto, hde]
    rw [List.filter_append, List.filter_append]
    have h1 : st1.edges.filter (fun e => decide (e.2 = st1.runs.length)) = [] := by
      rw [List.filter_eq_nil_iff]
      intro e he
      have := hvalid1 e he
      simp only [decide_eq_true_eq]
      omega
    have h3 : de.filter (fun e => decide (e.2 = st1.runs.length)) = [] := by
      rw [List.filter_eq_nil_iff]
      intro e he
      have := hdeall e he
      simp only [List.length_append, List.length_cons, List.length_nil] at this
      simp only [decide_eq_true_eq]
      omega
    rw [h1, h3]
    simp

/-- Witness for the amended C2 at the parent-first composition of `c2FlowA`
and `c2FlowB`. -/
theorem fof_C2_amended_witness :
    edgesInto c2State 1 = [(0, 1)] ∧
    c2RunB.flowName = "flow-b" ∧
    dget "x" c2RunB.parameters = some (PValue.taskResult 0 "taskA-slug") :=
  fof_C2_amended c2GoodComposing [("flow-a", c2FlowA)] [] "flow-b" c2FlowB c2FlowA
    "x" "taskA-slug" ⟨"x", "flow-a", "taskA"⟩ c2State 0 0 1 c2RunB
    rfl (by decide) rfl (by decide) rfl rfl rfl rfl rfl rfl

/-- C3: during `compose`, every non-mapped parameter of every composing flow
is registered in the merged workflow's parameter registry under the prefixed
name `{flow_name}-{parameter_name}`, while any run node created for that flow
passes the parameter under its original, unprefixed name (valued by the
renamed `Parameter` object). -/
theorem fof_C3_param_renaming
    (composing : List (String × Flow)) (st : ComposeState)
    (fn : String) (f : Flow) (p : String) (n : RunNode)
    (hc : compose composing = some st)
    (hnd : (composing.map Prod.fst).Nodup)
    (hmem : (fn, f) ∈ composing)
    (hp : p ∈ f.parameters)
    (hnm : isMapped f.mappedParameters p = false)
    (hn : n ∈ st.runs) (hfn : n.flowName = fn) :
    (dget (fn ++ "-" ++ p) st.params).isSome ∧
    dget p n.parameters = some (PValue.param (fn ++ "-" ++ p)) := by
  obtain ⟨cur0, hgo⟩ : ∃ cur0,
      composeGo composing composing 0 ⟨[], [], [], [], [], []⟩ none = some (st, cur0) := by
    unfold compose at hc
    cases hg : composeGo composing composing 0 ⟨[], [], [], [], [], []⟩ none with
    | none => rw [hg] at hc; cases hc
    | some pair =>
      obtain ⟨st0, cur0⟩ := pair
      rw [hg] at hc
      simp only [Option.map_some', Option.some.injEq] at hc
      exact ⟨cur0, by rw [hc]⟩
  constructor
  · exact composeGo_params_mem composing composing 0 ⟨[], [], [], [], [], []⟩ none st cur0
      fn f p hgo hmem hp hnm
  · rcases composeGo_runs_charac composing composing 0 ⟨[], [], [], [], [], []⟩ none st cur0
        hgo n hn with hin | ⟨fn', f', hmem', hname', hspec'⟩
    · exact absurd hin (List.not_mem_nil n)
    · have hfneq : fn' = fn := by rw [← hname', hfn]
      subst hfneq
      have hfeq : f' = f := by
        have h1 := dget_eq_of_mem_nodup hnd hmem'
        have h2 := dget_eq_of_mem_nodup hnd hmem
        rw [h1] at h2
        exact (Option.some.injEq .. ▸ h2)
      subst hfeq
      have := hspec' p hp hnm
      rw [hname'] at this
      exact this

/-- Witness for C3 at the composition `c1Composing`. -/
theorem fof_C3_witness :
    (dget ("flow-a" ++ "-" ++ "alpha") c1State.params).isSome ∧
    dget "alpha" c1RunA.parameters = some (PValue.param ("flow-a" ++ "-" ++ "alpha")) :=
  fof_C3_param_renaming c1Composing c1State "flow-a" c1FlowA "alpha" c1RunA
    rfl (by decide) (by decide) (by decide) rfl (by decide) rfl

/-! ## Claims about the local backend and the results store -/

/-- C8: `run_and_return` raises `EmptyResultError` whenever the flow run
produced no result (regardless of the requested slug), and raises
`TaskNotInFlowError` when the run produced a result but the requested task
slug is not among the flow's task slugs.  The source checks the empty result
first (line 116), so the second part assumes the run produced a result. -/
theorem local_C8_errors {α : Type} (slugs : List (String × String)) (ts : Option String)
    (r : List (String × α)) (s : String) (hs : s ∉ slugs.map Prod.snd) :
    run_and_return (none : Option (List (String × α))) slugs ts = .error .emptyResult ∧
    run_and_return (some r) slugs (some s) = .error .taskNotInFlow := by
  constructor
  · rfl
  · have h := invertSlugsAux_not_mem s slugs [] hs rfl
    simp [run_and_return, invertSlugs, h]

/-- Witness for C8 on a one-task flow. -/
theorem local_C8_witness :
    run_and_return (none : Option (List (String × Nat))) [("task1", "slug1")]
      (some "slug1") = .error .emptyResult ∧
    run_and_return (some [("task1", (5 : Nat))]) [("task1", "slug1")]
      (some "unknown-slug") = .error .taskNotInFlow :=
  local_C8_errors [("task1", "slug1")] (some "slug1") [("task1", 5)] "unknown-slug"
    (by decide)

/-- C9: inserting a result document into the results store succeeds once and
fails with the duplicate-key error (distinct by construction from
`otherInsertError`) when the same logical document is inserted again; and
after the first insert, querying by the original field values returns the
stored document, which reconstructs to a model field-for-field equal to the
original. -/
theorem results_C9_roundtrip {α : Type} [DecidableEq α]
    (store store2 : List (ResultDoc α)) (r : ResultModel α)
    (h : insert_one store (get_db_dict r) = .ok store2) :
    insert_one store2 (get_db_dict r) = .error .duplicateKey ∧
    get_db_dict r ∈ find store2 ⟨r.flow_id, r.inputs, r.outputs⟩ ∧
    resultFromDoc (get_db_dict r) = r := by
  have hnot : get_db_dict r ∉ store ∧ store2 = store ++ [get_db_dict r] := by
    by_cases hmem : get_db_dict r ∈ store
    · simp [insert_one, hmem] at h
    · simp only [insert_one, hmem, if_false, ite_false, Except.ok.injEq] at h
      exact ⟨hmem, h.symm⟩
  obtain ⟨hnm, hst⟩ := hnot
  have hmem2 : get_db_dict r ∈ store2 := by rw [hst]; simp
  refine ⟨by simp [insert_one, hmem2], ?_, rfl⟩
  rw [hst]
  unfold find
  apply List.mem_filter.mpr
  refine ⟨by simp, ?_⟩
  simp [docMatches, get_db_dict]

/-- Witness for C9 at a concrete document and the empty store. -/
theorem results_C9_witness :
    insert_one [get_db_dict c9Result] (get_db_dict c9Result) = .error .duplicateKey ∧
    get_db_dict c9Result ∈
      find [get_db_dict c9Result] ⟨c9Result.flow_id, c9Result.inputs, c9Result.outputs⟩ ∧
    resultFromDoc (get_db_dict c9Result) = c9Result :=
  results_C9_roundtrip [] [get_db_dict c9Result] c9Result rfl

/-- C10: `TaskNotInFlowError(F, T)` stores `flow_name = F` and
`task_name = T`, and its message interpolates the two names in swapped
positions: it reads `"Task {F} not in flow {T}."`, placing the flow name in
the task position and the task name in the flow position. -/
theorem fof_C10_message_swapped (F T : String) :
    (mkTaskNotInFlowError F T).flow_name = F ∧
    (mkTaskNotInFlowError F T).task_name = T ∧
    (mkTaskNotInFlowError F T).message = "Task " ++ F ++ " not in flow " ++ T ++ "." :=
  ⟨rfl, rfl, rfl⟩

end LumeServices
